import Mathlib

/-!
Verification development for the AI-RJ autonomous radio broadcaster.

The TypeScript sources are shallowly embedded here:
* JS strings are modelled as `List Char` (`JStr`), JS numbers as exact
  rationals `ℚ`, millisecond timestamps as `ℤ`.
* `Array.prototype.sort` with a comparator is modelled by `jsStableSort`,
  a stable insertion sort: JS `sort` is specified to be stable, and for a
  total preorder the stable sorted permutation is unique, so this is a
  faithful model of the observable behaviour.
* Stateful classes (`RtmpPublisher`, the segment builder inside
  `Orchestrator`) become explicit state records with pure transition
  functions; `Date.now()` and other ambient inputs become parameters.
* External tools (ffmpeg/ffprobe, the downloader, HTTP) are modelled by
  the data they return, passed in as explicit environment fields.
-/

namespace AIRJ

/-- JS strings, modelled as lists of characters. -/
abbrev JStr := List Char

/-- Segment kinds, from `types.ts` (`SegmentType`). -/
inductive SegmentType where
  | songs
  | commentary
  | liner
deriving DecidableEq, Repr

/-- Queue sources, from `types.ts` (`QueueSource`). -/
inductive QueueSource where
  | auto
  | manual
deriving DecidableEq, Repr

/-- A rendered segment, from `types.ts` (`RenderedSegment`), projected to the
fields the queue and scheduler logic reads (`filePath`, `notes`,
`commentaryText`, `channel` and `scheduledStartSec` are carried around
unchanged by the queue code and are omitted).  `priority` is optional in the
source (`priority?: number`), hence `Option ℚ`; `pinned?` is read through
`Boolean(...)`, hence a plain `Bool`. -/
structure RenderedSegment where
  id : JStr
  type : SegmentType
  durationSec : ℚ
  source : QueueSource
  priority : Option ℚ
  pinned : Bool
deriving DecidableEq, Repr

/-- An item of `RtmpPublisher`'s queue (`publisher.ts`, type `QueueItem`):
a segment plus its enqueue timestamp in milliseconds. -/
structure PubQueueItem where
  segment : RenderedSegment
  enqueuedAtMs : ℤ
deriving DecidableEq, Repr

/-- The effective priority used by the comparator in
`RtmpPublisher.enqueue` / `updateQueuedSegment`:
`typeof p === "number" ? p : source === "manual" ? 100 : 50`. -/
def effPriority (s : RenderedSegment) : ℚ :=
  match s.priority with
  | some p => p
  | none =>
    match s.source with
    | QueueSource.manual => 100
    | QueueSource.auto => 50

/-- The queue comparator of `publisher.ts` as a boolean relation:
`pubCmpLE a b` holds exactly when the comparator returns a value `≤ 0`
on `(a, b)`, i.e. when a stable sort may keep `a` before `b`. -/
def pubCmpLE (a b : PubQueueItem) : Bool :=
  if a.segment.pinned ≠ b.segment.pinned then a.segment.pinned
  else if effPriority a.segment ≠ effPriority b.segment then
    decide (effPriority b.segment < effPriority a.segment)
  else decide (a.enqueuedAtMs ≤ b.enqueuedAtMs)

/-- Stable insertion: place `a` after every element `b` of `l` with
`le b a`, i.e. at the position a stable sort gives to an element that
arrived last among its ties. -/
def stableInsert (le : α → α → Bool) (a : α) : List α → List α
  | [] => [a]
  | b :: l => if le b a then b :: stableInsert le a l else a :: b :: l

/-- Model of `Array.prototype.sort(cmp)` for a total-preorder comparator:
the stable insertion sort.  `le x y` means `cmp(x, y) ≤ 0`. -/
def jsStableSort (le : α → α → Bool) (l : List α) : List α :=
  l.foldl (fun acc x => stableInsert le x acc) []

/-- The mutable state of `RtmpPublisher` relevant to the queue claims. -/
structure PublisherState where
  queue : List PubQueueItem
  bufferedSec : ℚ
  running : Bool
deriving DecidableEq, Repr

/-- A freshly constructed `RtmpPublisher`. -/
def initPublisher : PublisherState :=
  { queue := [], bufferedSec := 0, running := false }

/-- `RtmpPublisher.enqueue`: push `{segment, enqueuedAtMs: Date.now()}`,
re-sort the whole array with the comparator, add the duration to
`bufferedSec`.  `nowMs` stands for `Date.now()`. -/
def pubEnqueue (st : PublisherState) (seg : RenderedSegment) (nowMs : ℤ) :
    PublisherState :=
  { st with
    queue := jsStableSort pubCmpLE (st.queue ++ [{ segment := seg, enqueuedAtMs := nowMs }]),
    bufferedSec := st.bufferedSec + seg.durationSec }

/-- `findIndex` + `splice(idx, 1)` on the queue: remove the first item whose
segment id matches, returning it and the remaining list. -/
def removeFirstById : List PubQueueItem → JStr → Option (PubQueueItem × List PubQueueItem)
  | [], _ => none
  | q :: l, sid =>
    if q.segment.id = sid then some (q, l)
    else
      match removeFirstById l sid with
      | none => none
      | some (r, l2) => some (r, q :: l2)

/-- `RtmpPublisher.removeQueuedSegment`: remove by id if present and clamp
`bufferedSec = max(0, bufferedSec - removed.durationSec)`; returns the
boolean result of the source method together with the new state. -/
def pubRemove (st : PublisherState) (sid : JStr) : Bool × PublisherState :=
  match removeFirstById st.queue sid with
  | none => (false, st)
  | some (removed, rest) =>
    (true,
      { st with
        queue := rest,
        bufferedSec := max 0 (st.bufferedSec - removed.segment.durationSec) })

/-- A `{priority?, pinned?}` patch, as received by
`RtmpPublisher.updateQueuedSegment`. -/
structure QueuePatch where
  priority : Option ℚ
  pinned : Option Bool
deriving DecidableEq, Repr

/-- The in-place segment patch of `updateQueuedSegment`:
`typeof patch.priority === "number" ? patch.priority : cur.priority`
and likewise for `pinned`. -/
def patchSegment (s : RenderedSegment) (p : QueuePatch) : RenderedSegment :=
  { s with
    priority := match p.priority with | some v => some v | none => s.priority,
    pinned := match p.pinned with | some b => b | none => s.pinned }

/-- `findIndex` + patch at that index: patch the first item whose segment id
matches, leaving the rest of the list unchanged. -/
def patchFirstById : List PubQueueItem → JStr → QueuePatch → Option (List PubQueueItem)
  | [], _, _ => none
  | q :: l, sid, p =>
    if q.segment.id = sid then some ({ q with segment := patchSegment q.segment p } :: l)
    else
      match patchFirstById l sid p with
      | none => none
      | some l2 => some (q :: l2)

/-- `RtmpPublisher.updateQueuedSegment`: patch the first matching item and
re-sort the whole array with the same comparator. -/
def pubUpdate (st : PublisherState) (sid : JStr) (p : QueuePatch) :
    Bool × PublisherState :=
  match patchFirstById st.queue sid p with
  | none => (false, st)
  | some q2 => (true, { st with queue := jsStableSort pubCmpLE q2 })

/-- `RtmpPublisher.stop`: set not-running, discard the whole queue and reset
`bufferedSec` to 0 (the FIFO/process teardown has no queue effect). -/
def pubStop (st : PublisherState) : PublisherState :=
  { st with running := false, queue := [], bufferedSec := 0 }

/-- `RtmpPublisher.getBufferedSec`. -/
def getBufferedSec (st : PublisherState) : ℚ := st.bufferedSec

/-- The queue mutations named by the spec: enqueue, remove, update. -/
inductive QueueMutation where
  | enqueue (seg : RenderedSegment) (nowMs : ℤ)
  | remove (sid : JStr)
  | update (sid : JStr) (p : QueuePatch)

/-- Apply one mutation to the publisher state. -/
def applyMutation (st : PublisherState) : QueueMutation → PublisherState
  | QueueMutation.enqueue seg t => pubEnqueue st seg t
  | QueueMutation.remove sid => (pubRemove st sid).2
  | QueueMutation.update sid p => (pubUpdate st sid p).2

/-- Run a sequence of queue mutations from the initial (empty) publisher. -/
def applyMutations (ms : List QueueMutation) : PublisherState :=
  ms.foldl applyMutation initPublisher

/-- The spec's queue order, spelled out: pinned descending, then priority
descending, then enqueue timestamp ascending. -/
def queueLexLE (a b : PubQueueItem) : Prop :=
  (a.segment.pinned = true ∧ b.segment.pinned = false)
  ∨ (a.segment.pinned = b.segment.pinned ∧
      (effPriority b.segment < effPriority a.segment
        ∨ (effPriority a.segment = effPriority b.segment
            ∧ a.enqueuedAtMs ≤ b.enqueuedAtMs)))

/-- A queue list sorted according to the publisher comparator. -/
def QueueSorted (l : List PubQueueItem) : Prop :=
  l.Pairwise fun a b => pubCmpLE a b = true

theorem pubCmpLE_iff (a b : PubQueueItem) :
    pubCmpLE a b = true ↔ queueLexLE a b := by
  cases hA : a.segment.pinned <;> cases hB : b.segment.pinned <;>
    by_cases hp : effPriority a.segment = effPriority b.segment <;>
      simp [pubCmpLE, queueLexLE, hA, hB, hp]

theorem pubCmpLE_total (a b : PubQueueItem) :
    pubCmpLE a b = true ∨ pubCmpLE b a = true := by
  cases hA : a.segment.pinned <;> cases hB : b.segment.pinned <;>
    by_cases hp : effPriority a.segment = effPriority b.segment <;>
      simp [pubCmpLE, hA, hB, hp] <;>
        first
          | exact le_total _ _
          | rw [if_neg fun h => hp h.symm]
            exact (Ne.lt_or_lt hp).symm

theorem pubCmpLE_trans (a b c : PubQueueItem) :
    pubCmpLE a b = true → pubCmpLE b c = true → pubCmpLE a c = true := by
  rw [pubCmpLE_iff, pubCmpLE_iff, pubCmpLE_iff]
  unfold queueLexLE
  intro hab hbc
  rcases hab with ⟨h1, h2⟩ | ⟨h1, h2⟩ <;> rcases hbc with ⟨h3, h4⟩ | ⟨h3, h4⟩
  · rw [h2] at h3
    exact absurd h3 (by simp)
  · exact Or.inl ⟨h1, by rw [← h3]; exact h2⟩
  · exact Or.inl ⟨by rw [h1]; exact h3, h4⟩
  · refine Or.inr ⟨h1.trans h3, ?_⟩
    rcases h2 with h2 | ⟨h2, h2t⟩ <;> rcases h4 with h4 | ⟨h4, h4t⟩
    · exact Or.inl (lt_trans h4 h2)
    · exact Or.inl (h4 ▸ h2)
    · exact Or.inl (h2 ▸ h4)
    · exact Or.inr ⟨h2.trans h4, le_trans h2t h4t⟩

theorem mem_stableInsert {le : α → α → Bool} {a x : α} {l : List α} :
    x ∈ stableInsert le a l ↔ x = a ∨ x ∈ l := by
  induction l with
  | nil => simp [stableInsert]
  | cons b l ih =>
    by_cases h : le b a = true
    · simp only [stableInsert, if_pos h, List.mem_cons, ih]
      tauto
    · simp only [stableInsert, if_neg h, List.mem_cons]

theorem stableInsert_pairwise {le : α → α → Bool}
    (total : ∀ a b, le a b = true ∨ le b a = true)
    (htrans : ∀ a b c, le a b = true → le b c = true → le a c = true)
    (a : α) {l : List α} (h : l.Pairwise fun x y => le x y = true) :
    (stableInsert le a l).Pairwise fun x y => le x y = true := by
  induction l with
  | nil => simp [stableInsert]
  | cons b l ih =>
    rcases List.pairwise_cons.mp h with ⟨hb, hl⟩
    by_cases hba : le b a = true
    · rw [stableInsert, if_pos hba]
      refine List.pairwise_cons.mpr ⟨?_, ih hl⟩
      intro x hx
      rcases mem_stableInsert.mp hx with rfl | hx
      · exact hba
      · exact hb x hx
    · rw [stableInsert, if_neg hba]
      have hab : le a b = true := (total a b).resolve_right fun h2 => hba h2
      refine List.pairwise_cons.mpr ⟨?_, h⟩
      intro x hx
      rcases List.mem_cons.mp hx with rfl | hx
      · exact hab
      · exact htrans a b x hab (hb x hx)

theorem jsStableSort_pairwise {le : α → α → Bool}
    (total : ∀ a b, le a b = true ∨ le b a = true)
    (htrans : ∀ a b c, le a b = true → le b c = true → le a c = true)
    (l : List α) :
    (jsStableSort le l).Pairwise fun x y => le x y = true := by
  suffices h : ∀ acc : List α, acc.Pairwise (fun x y => le x y = true) →
      (List.foldl (fun acc x => stableInsert le x acc) acc l).Pairwise
        fun x y => le x y = true by
    exact h [] List.Pairwise.nil
  induction l with
  | nil => exact fun acc hacc => hacc
  | cons a l ih =>
    intro acc hacc
    exact ih (stableInsert le a acc) (stableInsert_pairwise total htrans a hacc)

theorem mem_jsStableSort {le : α → α → Bool} {x : α} {l : List α} :
    x ∈ jsStableSort le l ↔ x ∈ l := by
  suffices h : ∀ acc : List α,
      (x ∈ List.foldl (fun acc x => stableInsert le x acc) acc l ↔ x ∈ acc ∨ x ∈ l) by
    simpa using h []
  induction l with
  | nil => simp
  | cons a l ih =>
    intro acc
    rw [List.foldl_cons, ih (stableInsert le a acc)]
    simp [mem_stableInsert]
    tauto

theorem stableInsert_of_forall_le {le : α → α → Bool} {a : α} {l : List α}
    (h : ∀ b ∈ l, le b a = true) :
    stableInsert le a l = l ++ [a] := by
  induction l with
  | nil => rfl
  | cons b l ih =>
    rw [stableInsert, if_pos (h b (List.mem_cons_self _ _)), ih fun x hx => h x (List.mem_cons_of_mem b hx)]
    rfl

theorem jsStableSort_of_pairwise {le : α → α → Bool} {l : List α}
    (h : l.Pairwise fun x y => le x y = true) :
    jsStableSort le l = l := by
  suffices hgen : ∀ acc : List α, (acc ++ l).Pairwise (fun x y => le x y = true) →
      List.foldl (fun acc x => stableInsert le x acc) acc l = acc ++ l by
    simpa using hgen [] (by simpa using h)
  clear h
  induction l with
  | nil => simp
  | cons a l ih =>
    intro acc hacc
    have hle : ∀ b ∈ acc, le b a = true := by
      intro b hb
      rcases (List.pairwise_append.mp hacc) with ⟨_, _, hcross⟩
      exact hcross b hb a (List.mem_cons_self _ _)
    have hacc2 : ((acc ++ [a]) ++ l).Pairwise fun x y => le x y = true := by
      simpa using hacc
    rw [List.foldl_cons, stableInsert_of_forall_le hle, ih (acc ++ [a]) hacc2]
    simp

theorem jsStableSort_append_single {le : α → α → Bool} (l : List α) (a : α) :
    jsStableSort le (l ++ [a]) = stableInsert le a (jsStableSort le l) := by
  unfold jsStableSort
  rw [List.foldl_append]
  rfl

theorem removeFirstById_stableInsert {item : PubQueueItem} {l : List PubQueueItem}
    (hfresh : ∀ q ∈ l, q.segment.id ≠ item.segment.id) :
    removeFirstById (stableInsert pubCmpLE item l) item.segment.id = some (item, l) := by
  induction l with
  | nil => simp [stableInsert, removeFirstById]
  | cons b l ih =>
    by_cases hba : pubCmpLE b item = true
    · rw [stableInsert, if_pos hba, removeFirstById,
        if_neg (hfresh b (List.mem_cons_self _ _)),
        ih fun q hq => hfresh q (List.mem_cons_of_mem b hq)]
    · rw [stableInsert, if_neg hba, removeFirstById, if_pos rfl]

theorem removeFirstById_subset {l rest : List PubQueueItem} {sid : JStr}
    {r : PubQueueItem}
    (h : removeFirstById l sid = some (r, rest)) : ∀ x ∈ rest, x ∈ l := by
  induction l generalizing rest with
  | nil => simp [removeFirstById] at h
  | cons b l ih =>
    rw [removeFirstById] at h
    by_cases hb : b.segment.id = sid
    · rw [if_pos hb] at h
      simp only [Option.some.injEq, Prod.mk.injEq] at h
      rw [← h.2]
      exact fun x hx => List.mem_cons_of_mem b hx
    · rw [if_neg hb] at h
      cases hrec : removeFirstById l sid with
      | none => rw [hrec] at h; cases h
      | some pr =>
        rw [hrec] at h
        cases h
        intro x hx
        rcases List.mem_cons.mp hx with rfl | hx
        · exact List.mem_cons_self _ _
        · exact List.mem_cons_of_mem b (ih hrec x hx)

theorem removeFirstById_pairwise {l rest : List PubQueueItem} {sid : JStr}
    {r : PubQueueItem} (hs : QueueSorted l)
    (h : removeFirstById l sid = some (r, rest)) : QueueSorted rest := by
  induction l generalizing rest with
  | nil => simp [removeFirstById] at h
  | cons b l ih =>
    rcases List.pairwise_cons.mp hs with ⟨hb, hl⟩
    rw [removeFirstById] at h
    by_cases hcase : b.segment.id = sid
    · rw [if_pos hcase] at h
      cases h
      exact hl
    · rw [if_neg hcase] at h
      cases hrec : removeFirstById l sid with
      | none => rw [hrec] at h; cases h
      | some pr =>
        rw [hrec] at h
        cases h
        refine List.pairwise_cons.mpr ⟨?_, ih hl hrec⟩
        exact fun x hx => hb x (removeFirstById_subset hrec x hx)

theorem patchFirstById_subset {l l2 : List PubQueueItem} {sid : JStr} {p : QueuePatch}
    (h : patchFirstById l sid p = some l2) :
    ∀ x ∈ l2, x ∈ l ∨ ∃ y ∈ l, x = { y with segment := patchSegment y.segment p } := by
  induction l generalizing l2 with
  | nil => simp [patchFirstById] at h
  | cons b l ih =>
    rw [patchFirstById] at h
    by_cases hb : b.segment.id = sid
    · rw [if_pos hb] at h
      cases h
      intro x hx
      rcases List.mem_cons.mp hx with rfl | hx
      · exact Or.inr ⟨b, List.mem_cons_self _ _, rfl⟩
      · exact Or.inl (List.mem_cons_of_mem b hx)
    · rw [if_neg hb] at h
      cases hrec : patchFirstById l sid p with
      | none => rw [hrec] at h; cases h
      | some lr =>
        rw [hrec] at h
        cases h
        intro x hx
        rcases List.mem_cons.mp hx with rfl | hx
        · exact Or.inl (List.mem_cons_self _ _)
        · rcases ih hrec x hx with hx2 | ⟨y, hy, hxy⟩
          · exact Or.inl (List.mem_cons_of_mem b hx2)
          · exact Or.inr ⟨y, List.mem_cons_of_mem b hy, hxy⟩

theorem queueSorted_applyMutation (st : PublisherState) (m : QueueMutation)
    (h : QueueSorted st.queue) : QueueSorted (applyMutation st m).queue := by
  cases m with
  | enqueue seg t =>
    exact jsStableSort_pairwise pubCmpLE_total pubCmpLE_trans _
  | remove sid =>
    show QueueSorted (pubRemove st sid).2.queue
    unfold pubRemove
    cases hrec : removeFirstById st.queue sid with
    | none => exact h
    | some pr => exact removeFirstById_pairwise h hrec
  | update sid p =>
    show QueueSorted (pubUpdate st sid p).2.queue
    unfold pubUpdate
    cases hrec : patchFirstById st.queue sid p with
    | none => exact h
    | some l2 => exact jsStableSort_pairwise pubCmpLE_total pubCmpLE_trans _

/-- C1: for every sequence of queue mutations (enqueue, remove, update)
applied to the publisher queue, the post-mutation queue is totally ordered
by pinned descending, then priority descending, then enqueue timestamp
ascending (ties decided by the enqueue timestamp clause of `queueLexLE`). -/
theorem c1_queue_mutations_sorted (ms : List QueueMutation) :
    (applyMutations ms).queue.Pairwise queueLexLE := by
  have h : QueueSorted (applyMutations ms).queue := by
    unfold applyMutations
    have hinv : ∀ st : PublisherState, QueueSorted st.queue →
        QueueSorted (ms.foldl applyMutation st).queue := by
      induction ms with
      | nil => exact fun st h => h
      | cons m ms ih =>
        intro st h
        exact ih (applyMutation st m) (queueSorted_applyMutation st m h)
    exact hinv initPublisher List.Pairwise.nil
  exact h.imp fun hxy => (pubCmpLE_iff _ _).mp hxy

/-- C10: after `RtmpPublisher.stop()` the pending queue is empty and
`getBufferedSec()` returns 0, whatever the queue held (pins and priorities
included): queued segments are discarded, not retained. -/
theorem c10_stop_clears_queue (st : PublisherState) :
    (pubStop st).queue = [] ∧ getBufferedSec (pubStop st) = 0 :=
  ⟨rfl, rfl⟩

/-- C8: on a sorted queue state with non-negative buffered seconds,
`enqueue(S)` followed by `remove(S.id)` for a fresh segment id returns the
queue to exactly its pre-enqueue contents and order and restores the
buffered-seconds value (the publisher queue is sorted in every reachable
state, by the C1 invariant). -/
theorem c8_enqueue_remove_roundtrip (q : List PubQueueItem) (b : ℚ) (r : Bool)
    (seg : RenderedSegment) (t : ℤ)
    (hsorted : QueueSorted q) (hb : 0 ≤ b) (hdur : 0 ≤ seg.durationSec)
    (hqdur : ∀ item ∈ q, 0 ≤ item.segment.durationSec)
    (hfresh : ∀ item ∈ q, item.segment.id ≠ seg.id) :
    pubRemove (pubEnqueue ⟨q, b, r⟩ seg t) seg.id = (true, ⟨q, b, r⟩) := by
  have hq : (pubEnqueue ⟨q, b, r⟩ seg t).queue
      = stableInsert pubCmpLE { segment := seg, enqueuedAtMs := t } q := by
    show jsStableSort pubCmpLE (q ++ [{ segment := seg, enqueuedAtMs := t }]) = _
    rw [jsStableSort_append_single, jsStableSort_of_pairwise hsorted]
  unfold pubRemove
  rw [hq]
  rw [show seg.id = ({ segment := seg, enqueuedAtMs := t } : PubQueueItem).segment.id from rfl,
    removeFirstById_stableInsert fun x hx => hfresh x hx]
  have hbuf : max 0 ((pubEnqueue ⟨q, b, r⟩ seg t).bufferedSec - seg.durationSec) = b := by
    show max 0 (b + seg.durationSec - seg.durationSec) = b
    rw [add_sub_cancel_right, max_eq_right hb]
  simp only [hbuf]
  rfl

/-- Witness for C8 at a concrete state: empty pre-queue, buffered 0. -/
theorem c8_enqueue_remove_roundtrip_witness :
    pubRemove
      (pubEnqueue ⟨[], 0, true⟩
        { id := ['a'], type := SegmentType.songs, durationSec := 7,
          source := QueueSource.auto, priority := some 50, pinned := false } 1234)
      ['a']
    = (true, ⟨[], 0, true⟩) := by
  exact c8_enqueue_remove_roundtrip [] 0 true
    { id := ['a'], type := SegmentType.songs, durationSec := 7,
      source := QueueSource.auto, priority := some 50, pinned := false } 1234
    List.Pairwise.nil le_rfl (by norm_num) (by simp) (by simp)

/-- The segment builder's phase (`Orchestrator.phase`). -/
inductive BuilderPhase where
  | songs
  | commentary
deriving DecidableEq, Repr

/-- The builder-relevant mutable state of `Orchestrator`:
current phase and the consecutive-songs counter. -/
structure BuilderState where
  phase : BuilderPhase
  songsSinceCommentary : ℤ
deriving DecidableEq, Repr

/-- `Orchestrator.buildNextSegment`, projected to the segment kind produced
and the phase/counter update.  In the `songs` phase the counter is
incremented and the phase flips to `commentary` once it reaches
`Math.max(1, commentaryEveryNSongs)`; in the `commentary` phase the
counter resets, the phase flips back to `songs`, and the produced kind is
`commentary` on success (`commentaryOk`) or `liner` on the fallback path. -/
def buildStep (cadenceN : ℤ) (commentaryOk : Bool) (st : BuilderState) :
    SegmentType × BuilderState :=
  match st.phase with
  | BuilderPhase.songs =>
    let counter := st.songsSinceCommentary + 1
    let cadence := max 1 cadenceN
    let phase := if cadence ≤ counter then BuilderPhase.commentary else BuilderPhase.songs
    (SegmentType.songs, { phase := phase, songsSinceCommentary := counter })
  | BuilderPhase.commentary =>
    ((if commentaryOk then SegmentType.commentary else SegmentType.liner),
      { phase := BuilderPhase.songs, songsSinceCommentary := 0 })

/-- C6: starting in phase `songs` with counter 0 and cadence N = 2, three
successful builds produce kinds song, song, commentary; the phase after each
build is songs, commentary, songs; the counter after each build is 1, 2, 0. -/
theorem c6_first_three_builds :
    let st0 : BuilderState := { phase := BuilderPhase.songs, songsSinceCommentary := 0 }
    let r1 := buildStep 2 true st0
    let r2 := buildStep 2 true r1.2
    let r3 := buildStep 2 true r2.2
    r1.1 = SegmentType.songs ∧ r2.1 = SegmentType.songs ∧ r3.1 = SegmentType.commentary
    ∧ r1.2.phase = BuilderPhase.songs ∧ r2.2.phase = BuilderPhase.commentary
    ∧ r3.2.phase = BuilderPhase.songs
    ∧ r1.2.songsSinceCommentary = 1 ∧ r2.2.songsSinceCommentary = 2
    ∧ r3.2.songsSinceCommentary = 0 := by
  decide

/-- The fixed clip window of `YouTubeAudioService` (`clipSeconds = 60`). -/
def clipSeconds : ℚ := 60

/-- The external inputs `YouTubeAudioService.fetchTrackWav` reads for one
call: whether `<track.id>-60s.wav` exists, the duration `ffprobe` reports
for it (`readDurationSec` returns -1 on any probe failure), and the duration
of the file left behind by the downloader + `ffmpeg -t 60 -ar 48000 -ac 2`
re-encode + rename on the regeneration path. -/
structure CacheEnv where
  cachedExists : Bool
  cachedProbeSec : ℚ
  regeneratedDurSec : ℚ
deriving DecidableEq, Repr

/-- Result of a `fetchTrackWav` call: the duration of the returned file and
whether the regeneration path ran. -/
structure FetchResult where
  durationSec : ℚ
  regenerated : Bool
deriving DecidableEq, Repr

/-- `YouTubeAudioService.fetchTrackWav`: return the cached file if it exists
and its probed duration is `> 0` and `≤ clipSeconds + 0.25`; otherwise
download, re-encode constrained to 60 s / 48 kHz / 2 ch, and atomically
replace the downloaded file via `rename`. -/
def fetchTrackWav (env : CacheEnv) : FetchResult :=
  if env.cachedExists = true ∧ 0 < env.cachedProbeSec
      ∧ env.cachedProbeSec ≤ clipSeconds + 0.25 then
    { durationSec := env.cachedProbeSec, regenerated := false }
  else
    { durationSec := env.regeneratedDurSec, regenerated := true }

/-- C4: `fetchTrackWav` returns the cached file without regeneration iff the
file exists and its probed duration is in (0, 60.25]; otherwise it
regenerates, and — assuming the downloader + re-encode contract (the
freshly produced file has duration in (0, 60]) — the returned duration is
always in (0, 60.25]. -/
theorem c4_cache_roundtrip (env : CacheEnv)
    (h1 : 0 < env.regeneratedDurSec) (h2 : env.regeneratedDurSec ≤ 60) :
    ((fetchTrackWav env).regenerated = false ↔
      env.cachedExists = true ∧ 0 < env.cachedProbeSec ∧ env.cachedProbeSec ≤ 60.25)
    ∧ ((fetchTrackWav env).regenerated = false →
        (fetchTrackWav env).durationSec = env.cachedProbeSec)
    ∧ 0 < (fetchTrackWav env).durationSec
    ∧ (fetchTrackWav env).durationSec ≤ 60.25 := by
  unfold fetchTrackWav clipSeconds
  split_ifs with h
  · refine ⟨?_, fun _ => rfl, h.2.1, by linarith [h.2.2]⟩
    simp only [true_iff]
    exact ⟨h.1, h.2.1, by linarith [h.2.2]⟩
  · refine ⟨?_, fun hc => by simp at hc, h1, by linarith⟩
    simp only [Bool.true_eq_false, false_iff]
    intro hc
    exact h ⟨hc.1, hc.2.1, by linarith [hc.2.2]⟩

/-- A concrete cache environment: cache miss, regenerated file of 42 s. -/
def cacheMissEnv : CacheEnv :=
  { cachedExists := false, cachedProbeSec := -1, regeneratedDurSec := 42 }

/-- Witness for C4 at the concrete environment `cacheMissEnv`. -/
theorem c4_cache_roundtrip_witness :
    0 < (fetchTrackWav cacheMissEnv).durationSec
    ∧ (fetchTrackWav cacheMissEnv).durationSec ≤ 60.25 := by
  have h := c4_cache_roundtrip cacheMissEnv (by norm_num [cacheMissEnv])
    (by norm_num [cacheMissEnv])
  exact ⟨h.2.2.1, h.2.2.2⟩

/-- Placement summary of a commentary segment that was built through
`prependStationId` and scheduled at `baseStart`: where the station-ID and
the voice audio sit on the output timeline and which gain envelope the
station-ID got. -/
structure StationIdPlacement where
  stationStartSec : ℚ
  stationDurSec : ℚ
  stationGainStart : ℚ
  stationGainEnd : ℚ
  voiceStartSec : ℚ
  voiceDurSec : ℚ
deriving DecidableEq, Repr

/-- `prependStationId` (`audio.ts`): a single ffmpeg invocation with the
filter `[0:a][1:a]concat=n=2:v=0:a=1`, i.e. the station-ID file played in
full, then the commentary file, with no volume or fade filter applied to
either input.  Scheduled at `baseStart`, the station-ID therefore occupies
`[baseStart, baseStart + D)` at constant unit gain and the voice starts at
`baseStart + D`. -/
def prependStationIdPlacement (baseStart stationDur voiceDur : ℚ) :
    StationIdPlacement :=
  { stationStartSec := baseStart, stationDurSec := stationDur,
    stationGainStart := 1, stationGainEnd := 1,
    voiceStartSec := baseStart + stationDur, voiceDurSec := voiceDur }

/-- Which of the two concat inputs is audible at a given offset. -/
inductive ConcatSource where
  | stationId
  | commentaryAudio
deriving DecidableEq, Repr

/-- Sample-level semantics of the `concat=n=2` filter in `prependStationId`:
at offset `t` from the start of the concatenated file, the station-ID is
audible for `t ∈ [0, D)` and the commentary voice for `t ∈ [D, D + V)`. -/
def concatSampleSource (stationDur voiceDur t : ℚ) : Option ConcatSource :=
  if 0 ≤ t ∧ t < stationDur then some ConcatSource.stationId
  else if stationDur ≤ t ∧ t < stationDur + voiceDur then
    some ConcatSource.commentaryAudio
  else none

/-- Station-ID scheduling rule in the words of spec §4.8 step 4, stated as
a second definition so it can be compared against the behaviour of
`prependStationId`: jingle at `baseStart` with a linear gain ramp 1.0→0.15
over D seconds, voice at `baseStart + max(0, D − min(0.45, 0.4·D))`. -/
def stationIdRuleSpec (baseStart stationDur voiceDur : ℚ) : StationIdPlacement :=
  let crossfadeSec := min 0.45 (0.4 * stationDur)
  { stationStartSec := baseStart, stationDurSec := stationDur,
    stationGainStart := 1, stationGainEnd := 0.15,
    voiceStartSec := baseStart + max 0 (stationDur - crossfadeSec),
    voiceDurSec := voiceDur }

/-- C2 counterexample: with D = 0.8 and baseStart = 20, the code starts the
voice at 20.8 s, not at 20.48 s as the claim states, and applies no gain
ramp to the station-ID (its gain stays 1, never 0.15). -/
theorem c2_station_id_counterexample :
    prependStationIdPlacement 20 (4/5) 10 ≠ stationIdRuleSpec 20 (4/5) 10
    ∧ (prependStationIdPlacement 20 (4/5) 10).voiceStartSec = 104/5
    ∧ (stationIdRuleSpec 20 (4/5) 10).voiceStartSec = 512/25
    ∧ (prependStationIdPlacement 20 (4/5) 10).stationGainEnd = 1 := by
  refine ⟨fun h => ?_, by norm_num [prependStationIdPlacement],
    by norm_num [stationIdRuleSpec], rfl⟩
  have h2 := congrArg StationIdPlacement.voiceStartSec h
  norm_num [prependStationIdPlacement, stationIdRuleSpec] at h2

/-- C2 amended: whenever the station-ID file is present the commentary build
concatenates the station-ID before the voice (no duration threshold and no
crossfade): placed at `baseStart`, the station-ID plays over
`[baseStart, baseStart + D)` at constant gain 1 and the voice starts at
exactly `baseStart + D`; with D = 0.8 and baseStart = 20 the voice starts
at 20.8 s. -/
theorem c2_station_id_concat (baseStart stationDur voiceDur : ℚ)
    (hV : 0 < voiceDur) :
    (prependStationIdPlacement baseStart stationDur voiceDur).voiceStartSec
      = baseStart + stationDur
    ∧ (prependStationIdPlacement baseStart stationDur voiceDur).stationGainStart = 1
    ∧ (prependStationIdPlacement baseStart stationDur voiceDur).stationGainEnd = 1
    ∧ (∀ t, 0 ≤ t → t < stationDur →
        concatSampleSource stationDur voiceDur t = some ConcatSource.stationId)
    ∧ concatSampleSource stationDur voiceDur stationDur
        = some ConcatSource.commentaryAudio
    ∧ (∀ t, stationDur ≤ t → t < stationDur + voiceDur →
        concatSampleSource stationDur voiceDur t = some ConcatSource.commentaryAudio)
    ∧ (prependStationIdPlacement 20 (4/5) 10).voiceStartSec = 104/5 := by
  refine ⟨rfl, rfl, rfl, ?_, ?_, ?_, by norm_num [prependStationIdPlacement]⟩
  · intro t ht0 htD
    unfold concatSampleSource
    rw [if_pos ⟨ht0, htD⟩]
  · unfold concatSampleSource
    rw [if_neg (by intro h; exact absurd h.2 (lt_irrefl _)),
      if_pos ⟨le_refl _, by linarith⟩]
  · intro t htD htV
    unfold concatSampleSource
    rw [if_neg (by intro h; linarith [h.2]), if_pos ⟨htD, htV⟩]

/-- Witness for C2's amended theorem at D = 0.8, V = 10, baseStart = 20. -/
theorem c2_station_id_concat_witness :
    (prependStationIdPlacement 20 (4/5) 10).voiceStartSec = 20 + 4/5
    ∧ concatSampleSource (4/5) 10 (4/5) = some ConcatSource.commentaryAudio := by
  have h := c2_station_id_concat 20 (4/5) 10 (by norm_num)
  exact ⟨h.1, h.2.2.2.2.1⟩

/-- JS `String.prototype.startsWith`, on character lists: does `s` begin
with `pat`? -/
def leadsWith : JStr → JStr → Bool
  | _, [] => true
  | [], _ :: _ => false
  | c :: s, p :: ps => c = p && leadsWith s ps

/-- JS `String.prototype.includes`, on character lists: does `pat` occur as
a contiguous substring of `s`? -/
def containsSub : JStr → JStr → Bool
  | [], pat => leadsWith [] pat
  | c :: rest, pat => leadsWith (c :: rest) pat || containsSub rest pat

/-- JS `String.prototype.toLowerCase`, on character lists. -/
def toLowerStr (s : JStr) : JStr := s.map Char.toLower

/-- A catalog track (`types.ts` `Track`), projected to the fields
`inferGenreContext` reads.  The catalog schema (`catalog.ts`) validates
`energy` as a number in [0, 1] with default 0.5 and `mood` as a string with
default "neutral"; both fields are required on the type, so the `?? 5` and
`|| ""` fallbacks in `inferGenreContext` are never exercised. -/
structure Track where
  id : JStr
  energy : ℚ
  mood : JStr
deriving DecidableEq, Repr

/-- `inferGenreContext` (`llm.ts`): the derived genre-vibe tag.  The
high-energy branch fires at `energy >= 8`; otherwise the lowercased mood is
scanned for keywords, with "rhythmic momentum" as the default. -/
def inferGenreContext (track : Option Track) : JStr :=
  match track with
  | none => "mixed genre vibes".data
  | some t =>
    if 8 ≤ t.energy then "high-energy anthem intensity".data
    else if containsSub (toLowerStr t.mood) "chill".data then "smooth laid-back flow".data
    else if containsSub (toLowerStr t.mood) "romantic".data then "heart-on-sleeve emotion".data
    else if containsSub (toLowerStr t.mood) "dark".data then "moody late-night depth".data
    else if containsSub (toLowerStr t.mood) "happy".data then "feel-good uplift".data
    else "rhythmic momentum".data

/-- C9: for every track that passes catalog validation (energy in [0, 1]),
the high-energy branch (threshold 8) can never fire: the derived vibe is
never the high-energy tag, it depends only on the mood string, and it is
the default "rhythmic momentum" whenever the lowercased mood contains none
of the recognized keywords. -/
theorem c9_valid_track_vibe (t : Track) (h0 : 0 ≤ t.energy) (h1 : t.energy ≤ 1) :
    inferGenreContext (some t) ≠ "high-energy anthem intensity".data
    ∧ (∀ t2 : Track, 0 ≤ t2.energy → t2.energy ≤ 1 → t2.mood = t.mood →
        inferGenreContext (some t2) = inferGenreContext (some t))
    ∧ (containsSub (toLowerStr t.mood) "chill".data = false →
        containsSub (toLowerStr t.mood) "romantic".data = false →
        containsSub (toLowerStr t.mood) "dark".data = false →
        containsSub (toLowerStr t.mood) "happy".data = false →
        inferGenreContext (some t) = "rhythmic momentum".data) := by
  have h8 : ¬ (8 ≤ t.energy) := by linarith
  refine ⟨?_, ?_, ?_⟩
  · show (inferGenreContext (some t)) ≠ _
    simp only [inferGenreContext]
    rw [if_neg h8]
    split_ifs <;> decide
  · intro t2 h20 h21 hm
    have h28 : ¬ (8 ≤ t2.energy) := by linarith
    simp only [inferGenreContext]
    rw [if_neg h8, if_neg h28, hm]
  · intro hc hr hd hh
    simp only [inferGenreContext]
    rw [if_neg h8]
    simp only [hc, hr, hd, hh, Bool.false_eq_true, if_false]

/-- A concrete valid track with a keyword-free mood. -/
def neutralTrack : Track := { id := "t1".data, energy := 1/2, mood := "neutral".data }

/-- Witness for C9 at `neutralTrack`: energy 0.5, mood "neutral". -/
theorem c9_valid_track_vibe_witness :
    inferGenreContext (some neutralTrack) = "rhythmic momentum".data := by
  have h := c9_valid_track_vibe neutralTrack (by norm_num [neutralTrack])
    (by norm_num [neutralTrack])
  exact h.2.2 (by decide) (by decide) (by decide) (by decide)

/-- JS `Math.round` for finite inputs: round half toward positive
infinity. -/
def jsRound (x : ℚ) : ℤ := ⌊x + 1/2⌋

/-- The priority clamp of the `PATCH /dashboard/queue/:segmentId` handler
(`server.ts`): `Math.max(0, Math.min(200, Math.round(priorityRaw)))`. -/
def clampPatchPriority (raw : ℚ) : ℤ := max 0 (min 200 (jsRound raw))

/-- The priority normalization of `RuntimeState.enqueueSegment`
(`runtime-state.ts`): an explicit numeric priority is kept; otherwise the
default is 100 for manual-source segments and 50 for auto-source ones. -/
def normalizePriority (priority : Option ℚ) (source : QueueSource) : ℚ :=
  match priority with
  | some p => p
  | none =>
    match source with
    | QueueSource.manual => 100
    | QueueSource.auto => 50

/-- The `RenderedSegment` literal built by `buildNextSegment` for both the
song and the commentary/liner paths: source auto, priority 50, unpinned. -/
def autoSegment (id : JStr) (ty : SegmentType) (dur : ℚ) : RenderedSegment :=
  { id := id, type := ty, durationSec := dur, source := QueueSource.auto,
    priority := some 50, pinned := false }

/-- The literal built by `enqueueManualCommentary`: manual, 120, pinned. -/
def manualCommentarySegment (id : JStr) (dur : ℚ) : RenderedSegment :=
  { id := id, type := SegmentType.commentary, durationSec := dur,
    source := QueueSource.manual, priority := some 120, pinned := true }

/-- The literal built by `enqueueManualTrack`: manual, 110, pinned. -/
def manualTrackSegment (id : JStr) (dur : ℚ) : RenderedSegment :=
  { id := id, type := SegmentType.songs, durationSec := dur,
    source := QueueSource.manual, priority := some 110, pinned := true }

/-- The literal built by `enqueueEmergencySilence`: auto, 200, pinned. -/
def recoverySegment (id : JStr) (dur : ℚ) : RenderedSegment :=
  { id := id, type := SegmentType.liner, durationSec := dur,
    source := QueueSource.auto, priority := some 200, pinned := true }

/-- The queue operations reachable through the system: the four enqueue
call sites of `Orchestrator` and, via the HTTP API, priority/pin patches
(clamped by the server handler) and removals. -/
inductive ApiAction where
  | enqueueAuto (id : JStr) (ty : SegmentType) (dur : ℚ) (nowMs : ℤ)
  | enqueueManualCommentary (id : JStr) (dur : ℚ) (nowMs : ℤ)
  | enqueueManualTrack (id : JStr) (dur : ℚ) (nowMs : ℤ)
  | enqueueRecovery (id : JStr) (dur : ℚ) (nowMs : ℤ)
  | patchQueue (sid : JStr) (rawPriority : Option ℚ) (pinned : Option Bool)
  | removeQueue (sid : JStr)

/-- Apply a system-level action to the publisher state; patches route
through the server clamp exactly as `server.ts` builds them. -/
def applyApiAction (st : PublisherState) : ApiAction → PublisherState
  | ApiAction.enqueueAuto id ty dur t => pubEnqueue st (autoSegment id ty dur) t
  | ApiAction.enqueueManualCommentary id dur t =>
      pubEnqueue st (manualCommentarySegment id dur) t
  | ApiAction.enqueueManualTrack id dur t =>
      pubEnqueue st (manualTrackSegment id dur) t
  | ApiAction.enqueueRecovery id dur t => pubEnqueue st (recoverySegment id dur) t
  | ApiAction.patchQueue sid raw pin =>
      (pubUpdate st sid
        { priority := raw.map fun x => ((clampPatchPriority x : ℤ) : ℚ),
          pinned := pin }).2
  | ApiAction.removeQueue sid => (pubRemove st sid).2

/-- Run a sequence of system-level actions from the initial publisher. -/
def runApi (as : List ApiAction) : PublisherState :=
  as.foldl applyApiAction initPublisher

theorem clampPatchPriority_range (raw : ℚ) :
    0 ≤ clampPatchPriority raw ∧ clampPatchPriority raw ≤ 200 :=
  ⟨le_max_left 0 _, max_le (by norm_num) (min_le_left 200 _)⟩

/-- The C3 invariant: every queued segment carries an explicit priority
in [0, 200]. -/
def PriorityInRange (s : RenderedSegment) : Prop :=
  ∃ p, s.priority = some p ∧ 0 ≤ p ∧ p ≤ 200

theorem priorityInRange_applyApiAction (st : PublisherState) (a : ApiAction)
    (h : ∀ item ∈ st.queue, PriorityInRange item.segment) :
    ∀ item ∈ (applyApiAction st a).queue, PriorityInRange item.segment := by
  cases a with
  | enqueueAuto id ty dur t =>
    intro item hit
    rcases List.mem_append.mp (mem_jsStableSort.mp hit) with hold | hnew
    · exact h item hold
    · simp only [List.mem_singleton] at hnew
      exact hnew ▸ ⟨50, rfl, by norm_num, by norm_num⟩
  | enqueueManualCommentary id dur t =>
    intro item hit
    rcases List.mem_append.mp (mem_jsStableSort.mp hit) with hold | hnew
    · exact h item hold
    · simp only [List.mem_singleton] at hnew
      exact hnew ▸ ⟨120, rfl, by norm_num, by norm_num⟩
  | enqueueManualTrack id dur t =>
    intro item hit
    rcases List.mem_append.mp (mem_jsStableSort.mp hit) with hold | hnew
    · exact h item hold
    · simp only [List.mem_singleton] at hnew
      exact hnew ▸ ⟨110, rfl, by norm_num, by norm_num⟩
  | enqueueRecovery id dur t =>
    intro item hit
    rcases List.mem_append.mp (mem_jsStableSort.mp hit) with hold | hnew
    · exact h item hold
    · simp only [List.mem_singleton] at hnew
      exact hnew ▸ ⟨200, rfl, by norm_num, by norm_num⟩
  | patchQueue sid raw pin =>
    show ∀ item ∈ (pubUpdate st sid _).2.queue, _
    unfold pubUpdate
    cases hrec : patchFirstById st.queue sid _ with
    | none => exact h
    | some l2 =>
      intro item hit
      rcases patchFirstById_subset hrec item (mem_jsStableSort.mp hit) with hold | ⟨y, hy, hxy⟩
      · exact h item hold
      · rcases h y hy with ⟨p, hp, hp0, hp200⟩
        cases raw with
        | none => exact ⟨p, by rw [hxy]; simpa [patchSegment] using hp, hp0, hp200⟩
        | some v =>
          refine ⟨((clampPatchPriority v : ℤ) : ℚ), by rw [hxy]; simp [patchSegment], ?_, ?_⟩
          · exact_mod_cast (clampPatchPriority_range v).1
          · exact_mod_cast (clampPatchPriority_range v).2
  | removeQueue sid =>
    show ∀ item ∈ (pubRemove st sid).2.queue, _
    unfold pubRemove
    cases hrec : removeFirstById st.queue sid with
    | none => exact h
    | some pr =>
      intro item hit
      exact h item (removeFirstById_subset hrec item hit)

/-- C3: after any sequence of system-level enqueues and priority updates,
every queued segment carries a priority in [0, 200]; the server clamp
always produces a value in [0, 200]; and a segment enqueued without an
explicit priority is normalized to 100 when its source is manual and to 50
when its source is auto. -/
theorem c3_priority_bounds (as : List ApiAction) :
    (∀ item ∈ (runApi as).queue, ∃ p, item.segment.priority = some p ∧ 0 ≤ p ∧ p ≤ 200)
    ∧ (∀ raw : ℚ, 0 ≤ clampPatchPriority raw ∧ clampPatchPriority raw ≤ 200)
    ∧ normalizePriority none QueueSource.manual = 100
    ∧ normalizePriority none QueueSource.auto = 50 := by
  refine ⟨?_, clampPatchPriority_range, rfl, rfl⟩
  unfold runApi
  have hinv : ∀ st : PublisherState, (∀ item ∈ st.queue, PriorityInRange item.segment) →
      ∀ item ∈ (as.foldl applyApiAction st).queue, PriorityInRange item.segment := by
    induction as with
    | nil => exact fun st h => h
    | cons a as ih =>
      intro st h
      exact ih (applyApiAction st a) (priorityInRange_applyApiAction st a h)
  exact hinv initPublisher (by simp [initPublisher])

/-- A concrete action sequence: enqueue one auto segment, then patch its
priority with the out-of-range raw value 1000 (clamped by the server). -/
def c3ActionsW : List ApiAction :=
  [ApiAction.enqueueAuto "a".data SegmentType.songs 5 0,
   ApiAction.patchQueue "a".data (some 1000) none]

/-- The segment left behind by `c3ActionsW`: the auto literal with its
priority overwritten by the clamped patch. -/
def c3SegW : RenderedSegment :=
  { id := "a".data, type := SegmentType.songs, durationSec := 5,
    source := QueueSource.auto,
    priority := some ((clampPatchPriority 1000 : ℤ) : ℚ), pinned := false }

/-- The single queue item left behind by `c3ActionsW`. -/
def c3ItemW : PubQueueItem := { segment := c3SegW, enqueuedAtMs := 0 }

/-- Witness for C3 at the concrete run `c3ActionsW`. -/
theorem c3_priority_bounds_witness :
    ∃ p, c3ItemW.segment.priority = some p ∧ 0 ≤ p ∧ p ≤ 200 := by
  have hq : (runApi c3ActionsW).queue = [c3ItemW] := rfl
  refine (c3_priority_bounds c3ActionsW).1 c3ItemW ?_
  rw [hq]
  exact List.mem_singleton_self _

/-- A JSON value as far as `TTSClient.materializePayloadAudio` inspects it:
either a string or anything else (numbers, objects, null, ...). -/
inductive JsonVal where
  | str (s : JStr)
  | other
deriving DecidableEq, Repr

/-- A parsed JSON object body, as an association list (JS object keys are
unique; `obj[key]` is the lookup). -/
abbrev TtsPayload := List (JStr × JsonVal)

/-- JS `String.prototype.trim`, on character lists: strip whitespace at
both ends. -/
def jsTrim (s : JStr) : JStr :=
  ((s.dropWhile Char.isWhitespace).reverse.dropWhile Char.isWhitespace).reverse

/-- JS `String.prototype.split(",")`, on character lists. -/
def splitOnComma : JStr → List JStr
  | [] => [[]]
  | c :: rest =>
    match splitOnComma rest with
    | [] => [[c]]
    | h :: t => if c = ',' then [] :: h :: t else (c :: h) :: t

/-- The URL keys accepted by `materializePayloadAudio`, in priority order. -/
def urlKeys : List JStr :=
  ["audio_url".data, "url".data, "file_url".data, "download_url".data]

/-- The local-path keys, in priority order. -/
def pathKeys : List JStr :=
  ["audio_path".data, "file_path".data, "path".data, "output_path".data]

/-- The base64 keys, in priority order. -/
def base64Keys : List JStr :=
  ["audio_base64".data, "wav_base64".data, "base64".data, "audio".data]

/-- All accepted keys in resolution order. -/
def acceptedTtsKeys : List JStr := urlKeys ++ pathKeys ++ base64Keys

/-- `TTSClient.pickString`: the first listed key whose value is a string
with non-empty trim; the trimmed value is returned. -/
def pickString (payload : TtsPayload) : List JStr → Option JStr
  | [] => none
  | k :: ks =>
    match payload.lookup k with
    | some (JsonVal.str s) =>
      if jsTrim s ≠ [] then some (jsTrim s) else pickString payload ks
    | _ => pickString payload ks

/-- The data-URI strip of the base64 branch:
`base64.startsWith("data:") ? base64.split(",")[1] : base64`, `undefined`
when there is no comma. -/
def stripDataUri (b64 : JStr) : Option JStr :=
  if leadsWith b64 "data:".data then (splitOnComma b64).get? 1 else some b64

/-- How `synthToFile` resolves a TTS response (which branch runs and with
what data); error constructors record the failure modes thrown by
`materializePayloadAudio`. -/
inductive TtsOutcome where
  | fetchedUrl (url : JStr)
  | copiedPath (p : JStr)
  | wroteBase64 (bytes : JStr)
  | errInvalidBase64
  | errUnsupported (keysSeen : List JStr)
deriving DecidableEq, Repr

/-- `TTSClient.materializePayloadAudio`: URL keys first, then local-path
keys, then base64 keys (data-URI prefix stripped, an empty or missing
remainder being the invalid-base64 error); if nothing matched, the
unsupported-payload error listing `Object.keys(payload)`. -/
def materializePayloadAudio (payload : TtsPayload) : TtsOutcome :=
  match pickString payload urlKeys with
  | some url => TtsOutcome.fetchedUrl url
  | none =>
    match pickString payload pathKeys with
    | some p => TtsOutcome.copiedPath p
    | none =>
      match pickString payload base64Keys with
      | some b64 =>
        match stripDataUri b64 with
        | some n =>
          if n ≠ [] then TtsOutcome.wroteBase64 n else TtsOutcome.errInvalidBase64
        | none => TtsOutcome.errInvalidBase64
      | none => TtsOutcome.errUnsupported (payload.map Prod.fst)

/-- A TTS HTTP response as `synthToFile` inspects it: status, declared
content type, raw body bytes, and the body parsed as JSON (only read when
the content type is not `audio/*`). -/
structure TtsResponse where
  ok : Bool
  contentType : JStr
  body : List ℕ
  jsonBody : TtsPayload

/-- The observable result of `TTSClient.synthToFile`. -/
inductive SynthResult where
  | errHttp
  | wroteBytes (body : List ℕ)
  | payloadResult (o : TtsOutcome)
deriving DecidableEq, Repr

/-- `TTSClient.synthToFile`: non-ok responses throw; an `audio/*` content
type writes the body bytes verbatim; otherwise the JSON body is resolved by
`materializePayloadAudio`. -/
def synthToFile (r : TtsResponse) : SynthResult :=
  if r.ok = false then SynthResult.errHttp
  else if containsSub r.contentType "audio/".data then SynthResult.wroteBytes r.body
  else SynthResult.payloadResult (materializePayloadAudio r.jsonBody)

/-- The claim reading of "holds a non-empty string". -/
def holdsNonEmptyString (payload : TtsPayload) (k : JStr) : Prop :=
  ∃ s, payload.lookup k = some (JsonVal.str s) ∧ s ≠ []

/-- What the code actually tests: the value is a string that is non-empty
after trimming whitespace. -/
def holdsNonBlankString (payload : TtsPayload) (k : JStr) : Prop :=
  ∃ s, payload.lookup k = some (JsonVal.str s) ∧ jsTrim s ≠ []

/-- The payload refuting C5 as stated: `audio_url` holds the non-empty
whitespace string " ". -/
def blankUrlPayload : TtsPayload := [("audio_url".data, JsonVal.str [' '])]

/-- C5 counterexample: on `{"audio_url": " "}` the code throws the
unsupported-payload error even though `audio_url` holds a non-empty
string, so the claimed if-and-only-if is false at this input. -/
theorem c5_unsupported_counterexample :
    ¬ ((materializePayloadAudio blankUrlPayload
          = TtsOutcome.errUnsupported (blankUrlPayload.map Prod.fst))
        ↔ ∀ k ∈ acceptedTtsKeys, ¬ holdsNonEmptyString blankUrlPayload k) := by
  intro h
  have hl : materializePayloadAudio blankUrlPayload
      = TtsOutcome.errUnsupported (blankUrlPayload.map Prod.fst) := by decide
  have h2 := h.mp hl "audio_url".data (by decide)
  exact h2 ⟨[' '], by decide, by decide⟩

theorem pickString_eq_none_iff (payload : TtsPayload) (ks : List JStr) :
    pickString payload ks = none ↔ ∀ k ∈ ks, ¬ holdsNonBlankString payload k := by
  induction ks with
  | nil => simp [pickString]
  | cons k ks ih =>
    rw [pickString]
    cases hl : payload.lookup k with
    | none =>
      simp only [List.mem_cons, ih]
      constructor
      · rintro h k2 (rfl | hk2)
        · rintro ⟨s, hs, _⟩
          rw [hl] at hs
          cases hs
        · exact h k2 hk2
      · intro h k2 hk2
        exact h k2 (Or.inr hk2)
    | some v =>
      cases v with
      | other =>
        simp only [List.mem_cons, ih]
        constructor
        · rintro h k2 (rfl | hk2)
          · rintro ⟨s, hs, _⟩
            rw [hl] at hs
            cases hs
          · exact h k2 hk2
        · intro h k2 hk2
          exact h k2 (Or.inr hk2)
      | str s =>
        dsimp only
        by_cases hs : jsTrim s ≠ []
        · rw [if_pos hs]
          simp only [List.mem_cons]
          constructor
          · intro h
            cases h
          · intro h
            exact absurd ⟨s, hl, hs⟩ (h k (Or.inl rfl))
        · rw [if_neg hs]
          simp only [List.mem_cons, ih]
          constructor
          · rintro h k2 (rfl | hk2)
            · rintro ⟨s2, hs2, hs2t⟩
              rw [hl] at hs2
              cases hs2
              exact hs hs2t
            · exact h k2 hk2
          · intro h k2 hk2
            exact h k2 (Or.inr hk2)

theorem materialize_unsupported_iff (payload : TtsPayload) :
    materializePayloadAudio payload
      = TtsOutcome.errUnsupported (payload.map Prod.fst)
    ↔ ∀ k ∈ acceptedTtsKeys, ¬ holdsNonBlankString payload k := by
  have hsplit : (∀ k ∈ acceptedTtsKeys, ¬ holdsNonBlankString payload k)
      ↔ pickString payload urlKeys = none ∧ pickString payload pathKeys = none
        ∧ pickString payload base64Keys = none := by
    rw [pickString_eq_none_iff payload urlKeys, pickString_eq_none_iff payload pathKeys,
      pickString_eq_none_iff payload base64Keys]
    simp [acceptedTtsKeys, or_imp, forall_and]
  rw [hsplit]
  unfold materializePayloadAudio
  cases hu : pickString payload urlKeys with
  | some url => simp [hu]
  | none =>
    cases hp : pickString payload pathKeys with
    | some p => simp [hp]
    | none =>
      cases hb : pickString payload base64Keys with
      | none => simp
      | some b64 =>
        cases hnorm : stripDataUri b64 with
        | none =>
          simp only [hb]
          rw [hnorm]
          simp
        | some n =>
          by_cases hn : n = []
          · simp only [hb]
            rw [hnorm]
            simp [hn]
          · simp only [hb]
            rw [hnorm]
            simp [hn]

/-- C5 amended: an `audio/*` content type writes the body bytes verbatim;
otherwise the JSON body is resolved in the strict key priority order of
`materializePayloadAudio`, and `synthToFile` fails with the
unsupported-payload error listing the keys seen if and only if none of the
accepted keys holds a string that is non-empty after trimming whitespace. -/
theorem c5_unsupported_iff (r : TtsResponse) (hok : r.ok = true) :
    (containsSub r.contentType "audio/".data = true →
      synthToFile r = SynthResult.wroteBytes r.body)
    ∧ (containsSub r.contentType "audio/".data = false →
        (synthToFile r
            = SynthResult.payloadResult
                (TtsOutcome.errUnsupported (r.jsonBody.map Prod.fst))
          ↔ ∀ k ∈ acceptedTtsKeys, ¬ holdsNonBlankString r.jsonBody k)) := by
  constructor
  · intro haudio
    unfold synthToFile
    rw [if_neg (by rw [hok]; intro h; cases h), if_pos haudio]
  · intro haudio
    unfold synthToFile
    rw [if_neg (by rw [hok]; intro h; cases h),
      if_neg (by rw [haudio]; intro h; cases h)]
    rw [show (SynthResult.payloadResult (materializePayloadAudio r.jsonBody)
        = SynthResult.payloadResult
            (TtsOutcome.errUnsupported (r.jsonBody.map Prod.fst)))
      ↔ (materializePayloadAudio r.jsonBody
          = TtsOutcome.errUnsupported (r.jsonBody.map Prod.fst)) from
      ⟨fun h => by injection h, fun h => by rw [h]⟩]
    exact materialize_unsupported_iff r.jsonBody

/-- A concrete non-audio response with an empty JSON body. -/
def emptyJsonResponse : TtsResponse :=
  { ok := true, contentType := "application/json".data, body := [],
    jsonBody := [] }

/-- Witness for C5 amended at `emptyJsonResponse`: the unsupported-payload
error fires on the empty JSON object. -/
theorem c5_unsupported_iff_witness :
    synthToFile emptyJsonResponse
      = SynthResult.payloadResult (TtsOutcome.errUnsupported []) := by
  have h := (c5_unsupported_iff emptyJsonResponse rfl).2 (by decide)
  refine h.mpr ?_
  intro k hk
  rintro ⟨s, hs, _⟩
  simp [emptyJsonResponse] at hs

/-- A virtual deck of the timeline engine: music alternates A/B, commentary
rides the voice-over lane. -/
inductive TLDeck where
  | A
  | B
  | VO
deriving DecidableEq, Repr

/-- Crossfade curves of `TimelineTransition`. -/
inductive TransitionCurve where
  | tri
  | exp
  | log
deriving DecidableEq, Repr

/-- A queue item as `buildTimelineSnapshot` (`timeline-engine.ts`) reads it. -/
structure TLQueueItem where
  id : JStr
  type : SegmentType
  priority : ℚ
  durationSec : ℚ
  scheduledStartSec : Option ℚ
deriving DecidableEq, Repr

/-- `adaptiveTransitionWindow` (`timeline-engine.ts`). -/
def adaptiveTransitionWindow (item : TLQueueItem) : ℚ :=
  if item.type = SegmentType.commentary then 1.8
  else if 120 ≤ item.priority then 2.2
  else if 80 ≤ item.priority then 2.8
  else 3.6

/-- `adaptiveCurve` (`timeline-engine.ts`). -/
def adaptiveCurve (item : TLQueueItem) : TransitionCurve :=
  if item.type = SegmentType.commentary then TransitionCurve.log
  else if 100 ≤ item.priority then TransitionCurve.exp
  else TransitionCurve.tri

/-- A `TimelineClip` produced by the snapshot builder. -/
structure TLClip where
  segmentId : JStr
  type : SegmentType
  deck : TLDeck
  startSec : ℚ
  durationSec : ℚ
deriving DecidableEq, Repr

/-- A planned `TimelineTransition`. -/
structure TLTransition where
  fromDeck : TLDeck
  toDeck : TLDeck
  startSec : ℚ
  durationSec : ℚ
  curve : TransitionCurve
deriving DecidableEq, Repr

/-- The deck flip `currentDeck === "A" ? "B" : "A"`. -/
def otherDeck : TLDeck → TLDeck
  | TLDeck.A => TLDeck.B
  | _ => TLDeck.A

/-- The output accumulated by the queue loop of `buildTimelineSnapshot`. -/
structure TLLoopResult where
  deckClips : List TLClip
  overlays : List TLClip
  transitions : List TLTransition
  lookahead : ℚ
deriving DecidableEq, Repr

/-- The `for` loop over the queue in `buildTimelineSnapshot`, as structural
recursion carrying `lookaheadOffset` and `currentDeck`; a transition is
recorded exactly when the current item is music-kind and the next queue
item exists and is not a commentary. -/
def tlProcessQueue (timelineNow : ℚ) :
    List TLQueueItem → ℚ → TLDeck → TLLoopResult
  | [], la, _ => { deckClips := [], overlays := [], transitions := [], lookahead := la }
  | q :: rest, la, deck =>
    let startSec :=
      match q.scheduledStartSec with
      | some s => max 0 (s - timelineNow)
      | none => if q.type = SegmentType.commentary then max 0 (la - 6) else la
    let clip : TLClip :=
      { segmentId := q.id, type := q.type,
        deck := if q.type = SegmentType.commentary then TLDeck.VO else deck,
        startSec := startSec, durationSec := q.durationSec }
    if q.type = SegmentType.commentary then
      let r := tlProcessQueue timelineNow rest la deck
      { r with overlays := clip :: r.overlays }
    else
      let la2 := max la (startSec + q.durationSec)
      let newTransitions : List TLTransition :=
        match rest with
        | [] => []
        | nxt :: _ =>
          if nxt.type ≠ SegmentType.commentary then
            [{ fromDeck := deck, toDeck := otherDeck deck,
               startSec := max 0 (la2 - adaptiveTransitionWindow q),
               durationSec := adaptiveTransitionWindow q,
               curve := adaptiveCurve q }]
          else []
      let r := tlProcessQueue timelineNow rest la2 (otherDeck deck)
      { r with deckClips := clip :: r.deckClips,
               transitions := newTransitions ++ r.transitions }

/-- The now-playing segment as the snapshot builder reads it; `elapsedSec`
stands for the floored wall-clock elapsed time. -/
structure TLNowPlaying where
  id : JStr
  type : SegmentType
  durationSec : ℚ
  elapsedSec : ℚ
deriving DecidableEq, Repr

/-- The timeline snapshot, projected to the fields C7 speaks about. -/
structure TimelineSnapshotModel where
  activeDeckClips : List TLClip
  voiceoverOverlays : List TLClip
  nextTransitions : List TLTransition
  lookaheadSecCovered : ℚ
deriving DecidableEq, Repr

/-- `buildTimelineSnapshot` (`timeline-engine.ts`): the now-playing segment
occupies deck A (music) or the voice-over lane (commentary) and advances
the lookahead; the queue is then placed by `tlProcessQueue`; at most 8
transitions are reported (`transitions.slice(0, 8)`). -/
def buildTimelineSnapshot (timelineNow : ℚ) (nowPlaying : Option TLNowPlaying)
    (queue : List TLQueueItem) : TimelineSnapshotModel :=
  match nowPlaying with
  | none =>
    let r := tlProcessQueue timelineNow queue 0 TLDeck.A
    { activeDeckClips := r.deckClips, voiceoverOverlays := r.overlays,
      nextTransitions := r.transitions.take 8, lookaheadSecCovered := r.lookahead }
  | some np =>
    let remaining := max 0 (np.durationSec - np.elapsedSec)
    if np.type = SegmentType.commentary then
      let r := tlProcessQueue timelineNow queue 0 TLDeck.A
      { activeDeckClips := r.deckClips,
        voiceoverOverlays :=
          { segmentId := np.id, type := SegmentType.commentary, deck := TLDeck.VO,
            startSec := 0, durationSec := remaining } :: r.overlays,
        nextTransitions := r.transitions.take 8, lookaheadSecCovered := r.lookahead }
    else
      let r := tlProcessQueue timelineNow queue remaining TLDeck.B
      { activeDeckClips :=
          { segmentId := np.id, type := np.type, deck := TLDeck.A,
            startSec := 0, durationSec := remaining } :: r.deckClips,
        voiceoverOverlays := r.overlays,
        nextTransitions := r.transitions.take 8, lookaheadSecCovered := r.lookahead }

/-- A music-kind queue item with priority 50 and no explicit start. -/
def musicItem (id : JStr) (dur : ℚ) : TLQueueItem :=
  { id := id, type := SegmentType.songs, priority := 50, durationSec := dur,
    scheduledStartSec := none }

/-- C7: four music segments of priority 50, nothing now playing: decks
A, B, A, B and exactly three transitions, each with window 3.6 s and curve
`tri`; and in general, for music-kind items the window is 2.2 s at
priority ≥ 120, 2.8 s at ≥ 80, else 3.6 s, and the curve is `exp` at
priority ≥ 100, else `tri`. -/
theorem c7_deck_alternation (i1 i2 i3 i4 : JStr) (d1 d2 d3 d4 : ℚ) :
    ((buildTimelineSnapshot 0 none
        [musicItem i1 d1, musicItem i2 d2, musicItem i3 d3,
          musicItem i4 d4]).activeDeckClips.map TLClip.deck
      = [TLDeck.A, TLDeck.B, TLDeck.A, TLDeck.B])
    ∧ (buildTimelineSnapshot 0 none
        [musicItem i1 d1, musicItem i2 d2, musicItem i3 d3,
          musicItem i4 d4]).nextTransitions.length = 3
    ∧ (∀ tr ∈ (buildTimelineSnapshot 0 none
        [musicItem i1 d1, musicItem i2 d2, musicItem i3 d3,
          musicItem i4 d4]).nextTransitions,
        tr.durationSec = 3.6 ∧ tr.curve = TransitionCurve.tri)
    ∧ (∀ item : TLQueueItem, item.type ≠ SegmentType.commentary →
        (120 ≤ item.priority → adaptiveTransitionWindow item = 2.2)
        ∧ (item.priority < 120 → 80 ≤ item.priority →
            adaptiveTransitionWindow item = 2.8)
        ∧ (item.priority < 80 → adaptiveTransitionWindow item = 3.6)
        ∧ (100 ≤ item.priority → adaptiveCurve item = TransitionCurve.exp)
        ∧ (item.priority < 100 → adaptiveCurve item = TransitionCurve.tri)) := by
  refine ⟨?_, ?_, ?_, ?_⟩
  · simp [buildTimelineSnapshot, tlProcessQueue, musicItem, otherDeck]
  · simp [buildTimelineSnapshot, tlProcessQueue, musicItem, otherDeck]
  · simp [buildTimelineSnapshot, tlProcessQueue, musicItem, otherDeck,
      adaptiveTransitionWindow, adaptiveCurve]
    norm_num
  · intro item hcomm
    refine ⟨?_, ?_, ?_, ?_, ?_⟩
    · intro h120
      rw [adaptiveTransitionWindow, if_neg hcomm, if_pos h120]
    · intro h120 h80
      rw [adaptiveTransitionWindow, if_neg hcomm, if_neg (not_le.mpr h120), if_pos h80]
    · intro h80
      rw [adaptiveTransitionWindow, if_neg hcomm,
        if_neg (not_le.mpr (by linarith)), if_neg (not_le.mpr h80)]
    · intro h100
      rw [adaptiveCurve, if_neg hcomm, if_pos h100]
    · intro h100
      rw [adaptiveCurve, if_neg hcomm, if_neg (not_le.mpr h100)]

/-- Witness for C7 at concrete ids, durations, and a priority-130 item. -/
theorem c7_deck_alternation_witness :
    ((buildTimelineSnapshot 0 none
        [musicItem "s1".data 100, musicItem "s2".data 100, musicItem "s3".data 100,
          musicItem "s4".data 100]).activeDeckClips.map TLClip.deck
      = [TLDeck.A, TLDeck.B, TLDeck.A, TLDeck.B])
    ∧ adaptiveTransitionWindow
        { id := "m".data, type := SegmentType.songs, priority := 130,
          durationSec := 10, scheduledStartSec := none } = 2.2
    ∧ adaptiveCurve
        { id := "m".data, type := SegmentType.songs, priority := 130,
          durationSec := 10, scheduledStartSec := none } = TransitionCurve.exp := by
  have h := c7_deck_alternation "s1".data "s2".data "s3".data "s4".data 100 100 100 100
  refine ⟨h.1, ?_, ?_⟩
  · exact (h.2.2.2 _ (by decide)).1 (by norm_num)
  · exact (h.2.2.2 _ (by decide)).2.2.2.1 (by norm_num)

end AIRJ
